import Mathlib

/-!
# gorethink `node.go`: the Node lifecycle

A shallow embedding of `src/node.go`.  A `Node` owns a connection pool (`*Pool`), carries a
`closed` flag and delegates queries to the pool.  The pool is an external collaborator: its
methods are not part of `node.go`, so they are a parameter (`PoolEnv`) of every operation, and
every call made on the pool is appended to a trace of `PoolEvent`s, so that "which pool calls
were made, on which receiver, in which order" is a value theorems can speak about.

Go features and how they are embedded:

* a pointer (`*Pool`, `*Cluster`, `*Cursor`) is an `Option` of an address, `none` being `nil`;
* the `error` interface is `Option GoError`, `none` being `nil`;
* a call can return or panic (`Outcome`); a panic raised by a pool method, or by indexing
  an empty slice, unwinds the calling Node method (deferred unlocks run, no field is written);
* a method of `*Node` is a function of the Node's fields and the trace so far, returning a
  `Run`: the outcome, the Node's fields afterwards and the trace afterwards;
* `sync.RWMutex`: every method that locks `mu` unlocks it in a `defer`, so between two calls of
  a sequential caller the mutex is free and carries no information; it is not a field of the
  sequential model.  What the mutex gives under concurrency is that the bodies of `Closed` and
  `Close` are atomic with respect to each other; this is what the interleaving model at the
  end of the definitions uses.
-/

namespace Gorethink

/-! ## Data model -/

/-- Modelled from the spec: the `Host` struct is declared outside `node.go`; the spec describes
an alias as a network address (host+port). -/
structure Host where
  Name : String
  Port : Int
deriving DecidableEq, Repr

/-- Address of a `Pool`; `*Pool` is `Option PoolRef`, `none` being `nil`. -/
structure PoolRef where
  addr : Nat
deriving DecidableEq, Repr

/-- Address of a `Cluster`; `*Cluster` is `Option ClusterRef`. -/
structure ClusterRef where
  addr : Nat
deriving DecidableEq, Repr

/-- Address of a `Cursor`; `*Cursor` is `Option CursorRef`. -/
structure CursorRef where
  addr : Nat
deriving DecidableEq, Repr

/-- Value held in a `hostpool.HostPoolResponse` interface; the interface itself is
`Option HostPoolResponse`, `none` being the nil interface. -/
structure HostPoolResponse where
  handle : Nat
deriving DecidableEq, Repr

/-- Modelled from the spec: Go `error` values.  `ErrInvalidNode` is the package-level error,
declared outside `node.go`, that `node.go` returns for a closed node (the spec's "invalid/stale
node" error); every other error value, such as one of the pool's, is `other` with a tag. -/
inductive GoError where
  | ErrInvalidNode
  | other (tag : Nat)
deriving DecidableEq, Repr

/-- The type `p.Query_QueryType` of the `ql2` package: a protocol opcode. -/
abbrev Query_QueryType := Int

/-- Modelled from the spec: the constant `p.Query_NOREPLY_WAIT` of the `ql2` package, which is
not under `src/`; the spec calls it "a specific protocol opcode".  No theorem depends on its
numeric value. -/
def Query_NOREPLY_WAIT : Query_QueryType := 4

/-- Modelled from the spec: the `Query` struct is declared outside `node.go`, which names only
its field `Type` (here `Typ`, `Type` being reserved).  The remaining fields are carried as one
payload `body`, whose zero value is `none` (the spec: the no-reply-wait opcode is "sent with no
query body"). -/
structure Query where
  Typ : Query_QueryType
  body : Option String
deriving DecidableEq, Repr

/-- Modelled from the spec: the `ServerResponse` struct is declared outside `node.go`; the spec
describes it as the server's self-reported name/identifier pair. -/
structure ServerResponse where
  ID : String
  Name : String
deriving DecidableEq, Repr

/-- The zero value of `ServerResponse`, what `var response ServerResponse` holds. -/
def ServerResponse.zero : ServerResponse := ⟨"", ""⟩

/-- Modelled from the spec: the `CloseOpts` struct is declared outside `node.go`, which reads
its field `NoReplyWait`; the spec gives the options of Close as `{ noReplyWait: bool }`. -/
structure CloseOpts where
  NoReplyWait : Bool
deriving DecidableEq, Repr

/-- The fields of `type Node struct`, without the mutex (see the module comment). -/
structure Node where
  ID : String
  Host : Gorethink.Host
  aliases : List Gorethink.Host
  cluster : Option ClusterRef
  pool : Option PoolRef
  hpr : Option HostPoolResponse
  closed : Bool
deriving DecidableEq, Repr

/-! ## The pool as an environment -/

/-- A method call on a pool, with its arguments. -/
inductive PoolCall where
  | Query (q : Query)
  | Exec (q : Query)
  | Server
  | Close
  | SetMaxIdleConns (n : Int)
  | SetMaxOpenConns (n : Int)
deriving DecidableEq, Repr

/-- One call issued on a pool: the receiver (`none` is a nil `*Pool`) and the call. -/
structure PoolEvent where
  recv : Option PoolRef
  call : PoolCall
deriving DecidableEq, Repr

/-- Result of a call: it returns a value or it panics with a message. -/
inductive Outcome (α : Type) where
  | ret (a : α)
  | panic (msg : String)
deriving DecidableEq, Repr

/-- The methods of `*Pool` that `node.go` calls, with the signatures `node.go` uses them at;
their bodies are outside `node.go`, so they are a parameter.  Each answer may depend on the
calls made so far (the trace, oldest first), on the receiver and on the arguments; it is a
return value or a panic.  A nil receiver is passed on as `none`: what a pool method does with
it belongs to the pool layer.  A pool method holds no reference to the Node and does not write
the Node's fields. -/
structure PoolEnv where
  Query : List PoolEvent → Option PoolRef → Gorethink.Query → Outcome (Option CursorRef × Option GoError)
  Exec : List PoolEvent → Option PoolRef → Gorethink.Query → Outcome (Option GoError)
  Server : List PoolEvent → Option PoolRef → Outcome (ServerResponse × Option GoError)
  Close : List PoolEvent → Option PoolRef → Outcome (Option GoError)
  SetMaxIdleConns : List PoolEvent → Option PoolRef → Int → Outcome Unit
  SetMaxOpenConns : List PoolEvent → Option PoolRef → Int → Outcome Unit

/-- What running a Node method gives: its outcome, the Node's fields afterwards and the trace
of pool calls afterwards. -/
structure Run (α : Type) where
  out : Outcome α
  node : Node
  calls : List PoolEvent

/-! ## The functions of `node.go` -/

/-- Go `newNode`: `Host: aliases[0]` panics on an empty slice (index out of range); otherwise
the fields are assigned and `hpr`, `closed` keep their zero values. -/
def newNode (id : String) (aliases : List Host) (cluster : Option ClusterRef)
    (pool : Option PoolRef) : Outcome Node :=
  if h : 0 < aliases.length then
    .ret {
      ID := id
      Host := aliases.get ⟨0, h⟩
      aliases := aliases
      cluster := cluster
      pool := pool
      hpr := none
      closed := false }
  else
    .panic "runtime error: index out of range [0] with length 0"

/-- Go `(*Node).Closed`: reads `n.closed` under the read lock. -/
def Node.Closed (n : Node) : Bool :=
  n.closed

/-- Go `(*Node).NoReplyWait`: `n.pool.Exec(Query{Type: p.Query_NOREPLY_WAIT})`, on whatever
`n.pool` holds. -/
def Node.NoReplyWait (env : PoolEnv) (n : Node) (tr : List PoolEvent) : Run (Option GoError) :=
  { out := env.Exec tr n.pool { Typ := Query_NOREPLY_WAIT, body := none }
    node := n
    calls := tr ++ [⟨n.pool, .Exec { Typ := Query_NOREPLY_WAIT, body := none }⟩] }

/-- First part of Go `(*Node).Close` on an open node: the optional barrier.  The error that
`n.NoReplyWait()` returns is dropped; a panic is kept. -/
def Node.closeBarrier (env : PoolEnv) (n : Node) (tr : List PoolEvent)
    (optArgs : List CloseOpts) : Run Unit :=
  if h : optArgs.length ≥ 1 then
    if (optArgs.get ⟨0, h⟩).NoReplyWait then
      match n.NoReplyWait env tr with
      | ⟨.ret _, n1, tr1⟩ => ⟨.ret (), n1, tr1⟩
      | ⟨.panic msg, n1, tr1⟩ => ⟨.panic msg, n1, tr1⟩
    else ⟨.ret (), n, tr⟩
  else ⟨.ret (), n, tr⟩

/-- Second part of Go `(*Node).Close` on an open node: `if n.pool != nil { n.pool.Close() }`.
The error that `n.pool.Close()` returns is dropped; a panic is kept. -/
def Node.closePool (env : PoolEnv) (n : Node) (tr : List PoolEvent) : Run Unit :=
  if n.pool ≠ none then
    match env.Close tr n.pool with
    | .ret _ => ⟨.ret (), n, tr ++ [⟨n.pool, .Close⟩]⟩
    | .panic msg => ⟨.panic msg, n, tr ++ [⟨n.pool, .Close⟩]⟩
  else ⟨.ret (), n, tr⟩

/-- Go `(*Node).Close`, under the write lock: return nil at once if closed; else the optional
barrier, the pool's `Close` if the pool is not nil, then `n.pool = nil; n.closed = true` and
return nil.  A panic in either pool call leaves the fields as they were. -/
def Node.Close (env : PoolEnv) (n : Node) (tr : List PoolEvent)
    (optArgs : List CloseOpts) : Run (Option GoError) :=
  if n.closed then ⟨.ret none, n, tr⟩
  else
    match n.closeBarrier env tr optArgs with
    | ⟨.panic msg, n1, tr1⟩ => ⟨.panic msg, n1, tr1⟩
    | ⟨.ret _, n1, tr1⟩ =>
      match n1.closePool env tr1 with
      | ⟨.panic msg, n2, tr2⟩ => ⟨.panic msg, n2, tr2⟩
      | ⟨.ret _, n2, tr2⟩ => ⟨.ret none, { n2 with pool := none, closed := true }, tr2⟩

/-- Go `(*Node).SetMaxIdleConns`: `n.pool.SetMaxIdleConns(idleConns)`, no closed check. -/
def Node.SetMaxIdleConns (env : PoolEnv) (n : Node) (tr : List PoolEvent) (idleConns : Int) :
    Run Unit :=
  ⟨env.SetMaxIdleConns tr n.pool idleConns, n, tr ++ [⟨n.pool, .SetMaxIdleConns idleConns⟩]⟩

/-- Go `(*Node).SetMaxOpenConns`: `n.pool.SetMaxOpenConns(openConns)`, no closed check. -/
def Node.SetMaxOpenConns (env : PoolEnv) (n : Node) (tr : List PoolEvent) (openConns : Int) :
    Run Unit :=
  ⟨env.SetMaxOpenConns tr n.pool openConns, n, tr ++ [⟨n.pool, .SetMaxOpenConns openConns⟩]⟩

/-- Go `(*Node).Query`: `ErrInvalidNode` with a nil cursor if `n.Closed()`; else
`n.pool.Query(q)`, whose pair is returned on both branches of `if err != nil`. -/
def Node.Query (env : PoolEnv) (n : Node) (tr : List PoolEvent) (q : Gorethink.Query) :
    Run (Option CursorRef × Option GoError) :=
  if n.Closed then ⟨.ret (none, some .ErrInvalidNode), n, tr⟩
  else
    match env.Query tr n.pool q with
    | .panic msg => ⟨.panic msg, n, tr ++ [⟨n.pool, .Query q⟩]⟩
    | .ret (cursor, err) =>
      if err ≠ none then ⟨.ret (cursor, err), n, tr ++ [⟨n.pool, .Query q⟩]⟩
      else ⟨.ret (cursor, err), n, tr ++ [⟨n.pool, .Query q⟩]⟩

/-- Go `(*Node).Exec`: `ErrInvalidNode` if `n.Closed()`; else `n.pool.Exec(q)`, whose error is
returned on both branches of `if err != nil`. -/
def Node.Exec (env : PoolEnv) (n : Node) (tr : List PoolEvent) (q : Gorethink.Query) :
    Run (Option GoError) :=
  if n.Closed then ⟨.ret (some .ErrInvalidNode), n, tr⟩
  else
    match env.Exec tr n.pool q with
    | .panic msg => ⟨.panic msg, n, tr ++ [⟨n.pool, .Exec q⟩]⟩
    | .ret err =>
      if err ≠ none then ⟨.ret err, n, tr ++ [⟨n.pool, .Exec q⟩]⟩
      else ⟨.ret err, n, tr ++ [⟨n.pool, .Exec q⟩]⟩

/-- Go `(*Node).Server`: the zero `ServerResponse` and `ErrInvalidNode` if `n.Closed()`; else
`return n.pool.Server()`. -/
def Node.Server (env : PoolEnv) (n : Node) (tr : List PoolEvent) :
    Run (ServerResponse × Option GoError) :=
  if n.Closed then ⟨.ret (ServerResponse.zero, some .ErrInvalidNode), n, tr⟩
  else ⟨env.Server tr n.pool, n, tr ++ [⟨n.pool, .Server⟩]⟩

/-! ## Sequences of calls on one Node -/

/-- One call of an exported or internal method of `*Node`, with its arguments. -/
inductive Op where
  | Close (optArgs : List CloseOpts)
  | Closed
  | Query (q : Gorethink.Query)
  | Exec (q : Gorethink.Query)
  | Server
  | NoReplyWait
  | SetMaxIdleConns (idleConns : Int)
  | SetMaxOpenConns (openConns : Int)
deriving DecidableEq, Repr

/-- The Node's fields and the trace after one call.  A caller that recovers from a panic goes
on with the fields as the panicking method left them. -/
def step (env : PoolEnv) (s : Node × List PoolEvent) : Op → Node × List PoolEvent
  | .Close optArgs => ((s.1.Close env s.2 optArgs).node, (s.1.Close env s.2 optArgs).calls)
  | .Closed => s
  | .Query q => ((s.1.Query env s.2 q).node, (s.1.Query env s.2 q).calls)
  | .Exec q => ((s.1.Exec env s.2 q).node, (s.1.Exec env s.2 q).calls)
  | .Server => ((s.1.Server env s.2).node, (s.1.Server env s.2).calls)
  | .NoReplyWait => ((s.1.NoReplyWait env s.2).node, (s.1.NoReplyWait env s.2).calls)
  | .SetMaxIdleConns k =>
      ((s.1.SetMaxIdleConns env s.2 k).node, (s.1.SetMaxIdleConns env s.2 k).calls)
  | .SetMaxOpenConns k =>
      ((s.1.SetMaxOpenConns env s.2 k).node, (s.1.SetMaxOpenConns env s.2 k).calls)

/-- The Node's fields and the trace after a sequence of calls, made one after the other. -/
def run (env : PoolEnv) (s : Node × List PoolEvent) (ops : List Op) : Node × List PoolEvent :=
  ops.foldl (step env) s

/-- The no-reply-wait barrier as a pool call: `Exec(Query{Type: p.Query_NOREPLY_WAIT})`. -/
def barrierCall : PoolCall :=
  .Exec { Typ := Query_NOREPLY_WAIT, body := none }

/-- Whether `Close` issues the barrier: `len(optArgs) >= 1` and `optArgs[0].NoReplyWait`. -/
def wantsBarrier : List CloseOpts → Bool
  | [] => false
  | o :: _ => o.NoReplyWait

/-- The pool calls of a `Close` on an open node whose barrier, if any, returns: the barrier if
asked for, then the pool's `Close` if the pool is not nil. -/
def Node.closeCalls (n : Node) (optArgs : List CloseOpts) : List PoolEvent :=
  (if wantsBarrier optArgs then [⟨n.pool, barrierCall⟩] else []) ++
    (if n.pool ≠ none then [⟨n.pool, .Close⟩] else [])

/-! ## Two goroutines on one Node

`Query` runs `n.Closed()` (read lock taken and released inside) and then evaluates
`n.pool.Query(q)` with no lock held; `Close` holds the write lock for its whole body.  So a
`Query` is two atomic steps, a `Close` is one, and a schedule says which goroutine moves. -/

/-- Where the goroutine running `Query(q)` stands. -/
inductive QueryPC where
  | start
  | checked (isClosed : Bool)
  | done (out : Outcome (Option CursorRef × Option GoError)) (recv : Option (Option PoolRef))
deriving DecidableEq, Repr

/-- Where the goroutine running `Close(optArgs...)` stands. -/
inductive ClosePC where
  | start
  | done (out : Outcome (Option GoError))
deriving DecidableEq, Repr

/-- The second half of Go `(*Node).Query`, after `n.Closed()` has answered `isClosed`: the
early return, or `n.pool.Query(q)` on the `n.pool` read now. -/
def Node.queryDelegate (env : PoolEnv) (n : Node) (tr : List PoolEvent) (q : Gorethink.Query)
    (isClosed : Bool) : Run (Option CursorRef × Option GoError) :=
  if isClosed then ⟨.ret (none, some .ErrInvalidNode), n, tr⟩
  else
    match env.Query tr n.pool q with
    | .panic msg => ⟨.panic msg, n, tr ++ [⟨n.pool, .Query q⟩]⟩
    | .ret (cursor, err) =>
      if err ≠ none then ⟨.ret (cursor, err), n, tr ++ [⟨n.pool, .Query q⟩]⟩
      else ⟨.ret (cursor, err), n, tr ++ [⟨n.pool, .Query q⟩]⟩

/-- The two goroutines. -/
inductive Tid where
  | query
  | close
deriving DecidableEq, Repr

/-- Shared Node, trace, and the two program counters; `seen` is the `n.pool` that was in the
Node when the closed check ran. -/
structure Sys where
  node : Node
  calls : List PoolEvent
  qpc : QueryPC
  cpc : ClosePC
  seen : Option (Option PoolRef)
deriving DecidableEq, Repr

/-- One atomic step of the scheduled goroutine; a finished goroutine does nothing. -/
def Sys.step (env : PoolEnv) (q : Gorethink.Query) (optArgs : List CloseOpts) (s : Sys) :
    Tid → Sys
  | .query =>
    match s.qpc with
    | .start => { s with qpc := .checked s.node.Closed, seen := some s.node.pool }
    | .checked c =>
      { s with
        node := (s.node.queryDelegate env s.calls q c).node
        calls := (s.node.queryDelegate env s.calls q c).calls
        qpc := .done (s.node.queryDelegate env s.calls q c).out
          (if c then none else some s.node.pool) }
    | .done _ _ => s
  | .close =>
    match s.cpc with
    | .start =>
      { s with
        node := (s.node.Close env s.calls optArgs).node
        calls := (s.node.Close env s.calls optArgs).calls
        cpc := .done (s.node.Close env s.calls optArgs).out }
    | .done _ => s

/-- Run a schedule. -/
def Sys.run (env : PoolEnv) (q : Gorethink.Query) (optArgs : List CloseOpts) (s : Sys)
    (sched : List Tid) : Sys :=
  sched.foldl (Sys.step env q optArgs) s

/-! ## Sample values -/

/-- A pool layer whose methods dereference the receiver: each panics on a nil receiver and
otherwise succeeds, except that `Exec` and `Close` return errors. -/
def samplePool : PoolEnv where
  Query := fun _ r _ =>
    match r with
    | none => .panic "nil pointer dereference"
    | some _ => .ret (some ⟨7⟩, none)
  Exec := fun _ r _ =>
    match r with
    | none => .panic "nil pointer dereference"
    | some _ => .ret (some (.other 1))
  Server := fun _ r =>
    match r with
    | none => .panic "nil pointer dereference"
    | some _ => .ret (⟨"uuid", "db1"⟩, none)
  Close := fun _ r =>
    match r with
    | none => .panic "nil pointer dereference"
    | some _ => .ret (some (.other 2))
  SetMaxIdleConns := fun _ r _ =>
    match r with
    | none => .panic "nil pointer dereference"
    | some _ => .ret ()
  SetMaxOpenConns := fun _ r _ =>
    match r with
    | none => .panic "nil pointer dereference"
    | some _ => .ret ()

/-- A pool layer whose `Exec` panics on every receiver; its other methods succeed. -/
def panicExecPool : PoolEnv where
  Query := fun _ _ _ => .ret (some ⟨7⟩, none)
  Exec := fun _ _ _ => .panic "connection lost"
  Server := fun _ _ => .ret (⟨"uuid", "db1"⟩, none)
  Close := fun _ _ => .ret none
  SetMaxIdleConns := fun _ _ _ => .ret ()
  SetMaxOpenConns := fun _ _ _ => .ret ()

/-- An open node with a pool at address 1. -/
def openNode : Node :=
  { ID := "n1", Host := ⟨"db1", 28015⟩, aliases := [⟨"db1", 28015⟩, ⟨"10.0.0.1", 28015⟩],
    cluster := some ⟨0⟩, pool := some ⟨1⟩, hpr := none, closed := false }

/-- A closed node: what `Close` leaves of `openNode`. -/
def closedNode : Node :=
  { openNode with pool := none, closed := true }

/-- An open node whose pool is nil: what `newNode` builds from a nil `*Pool`. -/
def openNilPoolNode : Node :=
  { openNode with pool := none }

/-- The pool calls of closing `openNode` with the barrier asked for. -/
def closedTrace : List PoolEvent :=
  [⟨some ⟨1⟩, barrierCall⟩, ⟨some ⟨1⟩, .Close⟩]

/-- Two goroutines about to run `Query(q)` and `Close()` on `openNode`, no pool call made
yet. -/
def raceStart : Sys :=
  { node := openNode, calls := [], qpc := .start, cpc := .start, seen := none }

/-- A query. -/
def sampleQuery : Query :=
  { Typ := 1, body := some "r.dbList" }

/-! ## Lemmas on single calls -/

theorem closeBarrier_nil (env : PoolEnv) (n : Node) (tr : List PoolEvent) :
    n.closeBarrier env tr [] = ⟨.ret (), n, tr⟩ := by
  simp [Node.closeBarrier]

theorem closeBarrier_cons_false (env : PoolEnv) (n : Node) (tr : List PoolEvent)
    (o : CloseOpts) (rest : List CloseOpts) (h : o.NoReplyWait = false) :
    n.closeBarrier env tr (o :: rest) = ⟨.ret (), n, tr⟩ := by
  simp [Node.closeBarrier, h]

theorem closeBarrier_cons_true (env : PoolEnv) (n : Node) (tr : List PoolEvent)
    (o : CloseOpts) (rest : List CloseOpts) (h : o.NoReplyWait = true) :
    n.closeBarrier env tr (o :: rest) =
      match env.Exec tr n.pool { Typ := Query_NOREPLY_WAIT, body := none } with
      | .ret _ => ⟨.ret (), n, tr ++ [⟨n.pool, barrierCall⟩]⟩
      | .panic msg => ⟨.panic msg, n, tr ++ [⟨n.pool, barrierCall⟩]⟩ := by
  simp only [Node.closeBarrier, List.length_cons, ge_iff_le, Nat.le_add_left, dite_true,
    List.get_eq_getElem, List.getElem_cons_zero, h, if_true, Node.NoReplyWait, barrierCall]
  cases env.Exec tr n.pool { Typ := Query_NOREPLY_WAIT, body := none } <;> rfl

theorem closeBarrier_node (env : PoolEnv) (n : Node) (tr : List PoolEvent)
    (optArgs : List CloseOpts) : (n.closeBarrier env tr optArgs).node = n := by
  cases optArgs with
  | nil => rw [closeBarrier_nil]
  | cons o rest =>
    cases h : o.NoReplyWait with
    | false => rw [closeBarrier_cons_false env n tr o rest h]
    | true =>
      rw [closeBarrier_cons_true env n tr o rest h]
      cases env.Exec tr n.pool { Typ := Query_NOREPLY_WAIT, body := none } <;> rfl

theorem closePool_node (env : PoolEnv) (n : Node) (tr : List PoolEvent) :
    (n.closePool env tr).node = n := by
  unfold Node.closePool
  split
  · split <;> rfl
  · rfl

theorem Close_of_closed (env : PoolEnv) (n : Node) (tr : List PoolEvent)
    (optArgs : List CloseOpts) (h : n.closed = true) :
    n.Close env tr optArgs = ⟨.ret none, n, tr⟩ := by
  simp [Node.Close, h]

/-- On an open node `Close` is the barrier, then the pool's close, then the two writes. -/
theorem Close_of_open (env : PoolEnv) (n : Node) (tr : List PoolEvent)
    (optArgs : List CloseOpts) (h : n.closed = false) :
    n.Close env tr optArgs =
      match (n.closeBarrier env tr optArgs).out with
      | .panic msg => ⟨.panic msg, n, (n.closeBarrier env tr optArgs).calls⟩
      | .ret _ =>
        match (n.closePool env (n.closeBarrier env tr optArgs).calls).out with
        | .panic msg =>
          ⟨.panic msg, n, (n.closePool env (n.closeBarrier env tr optArgs).calls).calls⟩
        | .ret _ =>
          ⟨.ret none, { n with pool := none, closed := true },
            (n.closePool env (n.closeBarrier env tr optArgs).calls).calls⟩ := by
  have hb := closeBarrier_node env n tr optArgs
  simp only [Node.Close, h, Bool.false_eq_true, if_false]
  cases hB : n.closeBarrier env tr optArgs with
  | mk out1 n1 tr1 =>
    rw [hB] at hb
    simp only at hb
    subst hb
    cases out1 with
    | panic msg => rfl
    | ret u =>
      simp only
      have hp := closePool_node env n1 tr1
      cases hP : n1.closePool env tr1 with
      | mk out2 n2 tr2 =>
        rw [hP] at hp
        simp only at hp
        subst hp
        cases out2 <;> rfl

/-- After `Close`, the fields are untouched or only `pool` and `closed` were written. -/
theorem Close_node_cases (env : PoolEnv) (n : Node) (tr : List PoolEvent)
    (optArgs : List CloseOpts) :
    (n.Close env tr optArgs).node = n ∨
      (n.Close env tr optArgs).node = { n with pool := none, closed := true } := by
  cases hc : n.closed with
  | true => rw [Close_of_closed env n tr optArgs hc]; exact Or.inl rfl
  | false =>
    rw [Close_of_open env n tr optArgs hc]
    cases (n.closeBarrier env tr optArgs).out with
    | panic msg => exact Or.inl rfl
    | ret u =>
      simp only
      cases (n.closePool env (n.closeBarrier env tr optArgs).calls).out with
      | panic msg => exact Or.inl rfl
      | ret u => exact Or.inr rfl

/-- A `Close` that returns returns nil and leaves the node closed, with a nil pool if it was
open. -/
theorem Close_ret_closed (env : PoolEnv) (n : Node) (tr : List PoolEvent)
    (optArgs : List CloseOpts) (e : Option GoError)
    (h : (n.Close env tr optArgs).out = .ret e) :
    e = none ∧ (n.Close env tr optArgs).node.closed = true ∧
      (n.closed = false → (n.Close env tr optArgs).node.pool = none) := by
  cases hc : n.closed with
  | true =>
    rw [Close_of_closed env n tr optArgs hc] at h ⊢
    refine ⟨?_, hc, fun hf => ?_⟩
    · cases h; rfl
    · cases hf
  | false =>
    rw [Close_of_open env n tr optArgs hc] at h ⊢
    cases hB : (n.closeBarrier env tr optArgs).out with
    | panic msg => rw [hB] at h; cases h
    | ret u =>
      rw [hB] at h
      cases hP : (n.closePool env (n.closeBarrier env tr optArgs).calls).out with
      | panic msg => rw [hP] at h; cases h
      | ret u =>
        rw [hP] at h
        refine ⟨?_, rfl, fun _ => rfl⟩
        cases h; rfl

theorem Query_node (env : PoolEnv) (n : Node) (tr : List PoolEvent) (q : Query) :
    (n.Query env tr q).node = n := by
  unfold Node.Query
  split
  · rfl
  · split
    · rfl
    · split <;> rfl

theorem Exec_node (env : PoolEnv) (n : Node) (tr : List PoolEvent) (q : Query) :
    (n.Exec env tr q).node = n := by
  unfold Node.Exec
  split
  · rfl
  · split
    · rfl
    · split <;> rfl

theorem Server_node (env : PoolEnv) (n : Node) (tr : List PoolEvent) :
    (n.Server env tr).node = n := by
  unfold Node.Server
  split <;> rfl

/-- Every call other than a returning `Close` on an open node leaves the fields as they were;
that one writes `pool := nil` and `closed := true`. -/
theorem step_node_cases (env : PoolEnv) (s : Node × List PoolEvent) (op : Op) :
    (step env s op).1 = s.1 ∨ (step env s op).1 = { s.1 with pool := none, closed := true } := by
  cases op with
  | Close optArgs =>
    exact Close_node_cases env s.1 s.2 optArgs
  | Closed => exact Or.inl rfl
  | Query q => exact Or.inl (Query_node env s.1 s.2 q)
  | Exec q => exact Or.inl (Exec_node env s.1 s.2 q)
  | Server => exact Or.inl (Server_node env s.1 s.2)
  | NoReplyWait => exact Or.inl rfl
  | SetMaxIdleConns k => exact Or.inl rfl
  | SetMaxOpenConns k => exact Or.inl rfl

theorem step_closed (env : PoolEnv) (s : Node × List PoolEvent) (op : Op)
    (h : s.1.closed = true) : (step env s op).1.closed = true := by
  rcases step_node_cases env s op with h1 | h1 <;> rw [h1]
  exact h

theorem run_closed (env : PoolEnv) (ops : List Op) :
    ∀ s : Node × List PoolEvent, s.1.closed = true → (run env s ops).1.closed = true := by
  induction ops with
  | nil => intro s h; exact h
  | cons op ops ih =>
    intro s h
    simp only [run, List.foldl_cons]
    exact ih _ (step_closed env s op h)

/-- The pairing of `pool` and `closed`: the pool is present exactly on an open node. -/
def Node.Paired (n : Node) : Prop :=
  n.pool ≠ none ↔ n.closed = false

theorem step_paired (env : PoolEnv) (s : Node × List PoolEvent) (op : Op)
    (h : s.1.Paired) : (step env s op).1.Paired := by
  rcases step_node_cases env s op with h1 | h1 <;> rw [h1]
  · exact h
  · simp [Node.Paired]

theorem run_paired (env : PoolEnv) (ops : List Op) :
    ∀ s : Node × List PoolEvent, s.1.Paired → (run env s ops).1.Paired := by
  induction ops with
  | nil => intro s h; exact h
  | cons op ops ih =>
    intro s h
    simp only [run, List.foldl_cons]
    exact ih _ (step_paired env s op h)

theorem closeBarrier_of_ret (env : PoolEnv) (n : Node) (tr : List PoolEvent)
    (optArgs : List CloseOpts) (e : Option GoError)
    (h : env.Exec tr n.pool { Typ := Query_NOREPLY_WAIT, body := none } = .ret e) :
    n.closeBarrier env tr optArgs =
      ⟨.ret (), n, tr ++ (if wantsBarrier optArgs then [⟨n.pool, barrierCall⟩] else [])⟩ := by
  cases optArgs with
  | nil => simp [closeBarrier_nil, wantsBarrier]
  | cons o rest =>
    cases ho : o.NoReplyWait with
    | false => simp [closeBarrier_cons_false env n tr o rest ho, wantsBarrier, ho]
    | true => simp [closeBarrier_cons_true env n tr o rest ho, wantsBarrier, ho, h]

theorem closeBarrier_of_not_wanted (env : PoolEnv) (n : Node) (tr : List PoolEvent)
    (optArgs : List CloseOpts) (h : wantsBarrier optArgs = false) :
    n.closeBarrier env tr optArgs = ⟨.ret (), n, tr⟩ := by
  cases optArgs with
  | nil => exact closeBarrier_nil env n tr
  | cons o rest => exact closeBarrier_cons_false env n tr o rest h

theorem closePool_calls (env : PoolEnv) (n : Node) (tr : List PoolEvent) :
    (n.closePool env tr).calls = tr ++ (if n.pool ≠ none then [⟨n.pool, .Close⟩] else []) := by
  unfold Node.closePool
  split
  · split <;> rfl
  · simp

theorem closePool_of_ret (env : PoolEnv) (n : Node) (tr : List PoolEvent)
    (h : n.pool ≠ none → ∃ e, env.Close tr n.pool = .ret e) :
    (n.closePool env tr).out = .ret () := by
  unfold Node.closePool
  split
  · rename_i hp
    obtain ⟨e, he⟩ := h hp
    rw [he]
  · rfl

theorem closeBarrier_of_wanted_ret (env : PoolEnv) (n : Node) (tr : List PoolEvent)
    (optArgs : List CloseOpts)
    (h : wantsBarrier optArgs = true →
      ∃ e, env.Exec tr n.pool { Typ := Query_NOREPLY_WAIT, body := none } = .ret e) :
    n.closeBarrier env tr optArgs =
      ⟨.ret (), n, tr ++ (if wantsBarrier optArgs then [⟨n.pool, barrierCall⟩] else [])⟩ := by
  cases hw : wantsBarrier optArgs with
  | true =>
    obtain ⟨e, he⟩ := h hw
    have hb := closeBarrier_of_ret env n tr optArgs e he
    rw [hw] at hb
    exact hb
  | false =>
    rw [closeBarrier_of_not_wanted env n tr optArgs hw]
    simp

/-- The calls of `Close` on an open node whose barrier does not panic. -/
theorem Close_calls_of_open (env : PoolEnv) (n : Node) (tr : List PoolEvent)
    (optArgs : List CloseOpts) (hopen : n.closed = false)
    (hb : n.closeBarrier env tr optArgs =
      ⟨.ret (), n, tr ++ (if wantsBarrier optArgs then [⟨n.pool, barrierCall⟩] else [])⟩) :
    (n.Close env tr optArgs).calls = tr ++ n.closeCalls optArgs := by
  rw [Close_of_open env n tr optArgs hopen, hb]
  simp only
  have hc := closePool_calls env n
    (tr ++ (if wantsBarrier optArgs then [⟨n.pool, barrierCall⟩] else []))
  cases hP : (n.closePool env
      (tr ++ (if wantsBarrier optArgs then [⟨n.pool, barrierCall⟩] else []))).out with
  | panic msg => simp only [hc, Node.closeCalls, List.append_assoc]
  | ret u => simp only [hc, Node.closeCalls, List.append_assoc]

/-- When the pool calls that `Close` makes on an open node return (the barrier if asked for,
at the trace `tr`; the pool's `Close` if the pool is not nil, at the trace after the barrier),
`Close` returns nil, makes exactly `closeCalls` and writes the two fields. -/
theorem Close_of_open_ret (env : PoolEnv) (n : Node) (tr : List PoolEvent)
    (optArgs : List CloseOpts) (hopen : n.closed = false)
    (hbar : wantsBarrier optArgs = true →
      ∃ e, env.Exec tr n.pool { Typ := Query_NOREPLY_WAIT, body := none } = .ret e)
    (hclose : n.pool ≠ none →
      ∃ e, env.Close (tr ++ (if wantsBarrier optArgs then [⟨n.pool, barrierCall⟩] else []))
        n.pool = .ret e) :
    n.Close env tr optArgs =
      ⟨.ret none, { n with pool := none, closed := true }, tr ++ n.closeCalls optArgs⟩ := by
  have hb := closeBarrier_of_wanted_ret env n tr optArgs hbar
  have hcalls := Close_calls_of_open env n tr optArgs hopen hb
  rw [Close_of_open env n tr optArgs hopen] at hcalls ⊢
  rw [hb] at hcalls ⊢
  simp only at hcalls ⊢
  rw [closePool_of_ret env n _ hclose] at hcalls ⊢
  simp only at hcalls ⊢
  rw [hcalls]

theorem closeCalls_count_Close (n : Node) (optArgs : List CloseOpts) :
    (n.closeCalls optArgs).countP (fun e => e.call = .Close) ≤ 1 := by
  unfold Node.closeCalls barrierCall
  split <;> split <;> simp

theorem closeCalls_count_barrier (n : Node) (optArgs : List CloseOpts) :
    (n.closeCalls optArgs).countP (fun e => e.call = barrierCall) ≤ 1 := by
  unfold Node.closeCalls barrierCall
  split <;> split <;> simp

/-! ## The claims -/

/-- C1, as stated, fails on an open Node whose barrier panics: `openNilPoolNode` (open, pool
nil) asked to close with `NoReplyWait` calls `n.pool.Exec` on the nil pool, unguarded, and
`samplePool` panics there.  The first `Close` does not return nil and leaves the Node open, so
the second `Close` issues the barrier again: two barrier calls over the two `Close` calls. -/
theorem Close_twice_repeats_panicking_barrier :
    openNilPoolNode.closed = false ∧
    openNilPoolNode.Close samplePool [] [⟨true⟩] =
      ⟨.panic "nil pointer dereference", openNilPoolNode, [⟨none, barrierCall⟩]⟩ ∧
    (openNilPoolNode.Close samplePool [] [⟨true⟩]).node.Close samplePool
        (openNilPoolNode.Close samplePool [] [⟨true⟩]).calls [⟨true⟩] =
      ⟨.panic "nil pointer dereference", openNilPoolNode,
        [⟨none, barrierCall⟩, ⟨none, barrierCall⟩]⟩ ∧
    (openNilPoolNode.Close samplePool [] [⟨true⟩]).out ≠ .ret none ∧
    ¬ ((openNilPoolNode.Close samplePool [] [⟨true⟩]).node.Close samplePool
        (openNilPoolNode.Close samplePool [] [⟨true⟩]).calls [⟨true⟩]).calls.countP
          (fun e => e.call = barrierCall) ≤ 1 := by
  have h1 : openNilPoolNode.Close samplePool [] [⟨true⟩] =
      ⟨.panic "nil pointer dereference", openNilPoolNode, [⟨none, barrierCall⟩]⟩ := by
    rw [Close_of_open samplePool openNilPoolNode [] [⟨true⟩] rfl,
      closeBarrier_cons_true samplePool openNilPoolNode [] ⟨true⟩ [] rfl]
    rfl
  have h2 : openNilPoolNode.Close samplePool [⟨none, barrierCall⟩] [⟨true⟩] =
      ⟨.panic "nil pointer dereference", openNilPoolNode,
        [⟨none, barrierCall⟩, ⟨none, barrierCall⟩]⟩ := by
    rw [Close_of_open samplePool openNilPoolNode _ [⟨true⟩] rfl,
      closeBarrier_cons_true samplePool openNilPoolNode _ ⟨true⟩ [] rfl]
    rfl
  refine ⟨rfl, h1, ?_, ?_, ?_⟩
  · rw [h1]
    exact h2
  · rw [h1]
    intro h
    cases h
  · rw [h1]
    show ¬ (openNilPoolNode.Close samplePool [⟨none, barrierCall⟩] [⟨true⟩]).calls.countP
      (fun e => e.call = barrierCall) ≤ 1
    rw [h2]
    decide

/-- C1, amended.  `Close` is idempotent.  On a Node whose `closed` flag is set, `Close` with
any options returns nil, leaves every field as it was and makes no call on the pool.  Hence
on an open Node, when the pool calls of the first `Close` return rather than panic (the
barrier if asked for; the pool's `Close` if the pool is not nil), two consecutive `Close`
calls both return nil: the first makes exactly `closeCalls` (the barrier at most once, then the
pool's `Close` at most once) and closes the Node, the second makes no call and changes
nothing. -/
theorem Close_idempotent (env : PoolEnv) (n : Node) (tr : List PoolEvent) :
    (∀ optArgs, n.closed = true → n.Close env tr optArgs = ⟨.ret none, n, tr⟩) ∧
    (∀ o1 o2, n.closed = false →
      (wantsBarrier o1 = true →
        ∃ e, env.Exec tr n.pool { Typ := Query_NOREPLY_WAIT, body := none } = .ret e) →
      (n.pool ≠ none →
        ∃ e, env.Close (tr ++ (if wantsBarrier o1 then [⟨n.pool, barrierCall⟩] else []))
          n.pool = .ret e) →
      n.Close env tr o1 =
        ⟨.ret none, { n with pool := none, closed := true }, tr ++ n.closeCalls o1⟩ ∧
      (n.Close env tr o1).node.Close env (n.Close env tr o1).calls o2 =
        ⟨.ret none, (n.Close env tr o1).node, (n.Close env tr o1).calls⟩ ∧
      (n.closeCalls o1).countP (fun e => e.call = .Close) ≤ 1 ∧
      (n.closeCalls o1).countP (fun e => e.call = barrierCall) ≤ 1) := by
  refine ⟨fun optArgs h => Close_of_closed env n tr optArgs h, ?_⟩
  intro o1 o2 hopen hbar hclose
  rw [Close_of_open_ret env n tr o1 hopen hbar hclose]
  exact ⟨rfl, Close_of_closed env _ _ o2 rfl, closeCalls_count_Close n o1,
    closeCalls_count_barrier n o1⟩

/-- Witness of C1 (amended): a closed node; `openNode` closed twice with the barrier asked
for; and `openNilPoolNode` closed twice with no option, where no pool call is made. -/
theorem Close_idempotent_witness :
    closedNode.Close samplePool [] [⟨true⟩] = ⟨.ret none, closedNode, []⟩ ∧
    (openNode.Close samplePool [] [⟨true⟩] =
        ⟨.ret none, { openNode with pool := none, closed := true },
          [] ++ openNode.closeCalls [⟨true⟩]⟩ ∧
      (openNode.Close samplePool [] [⟨true⟩]).node.Close samplePool
          (openNode.Close samplePool [] [⟨true⟩]).calls [⟨true⟩] =
        ⟨.ret none, (openNode.Close samplePool [] [⟨true⟩]).node,
          (openNode.Close samplePool [] [⟨true⟩]).calls⟩ ∧
      (openNode.closeCalls [⟨true⟩]).countP (fun e => e.call = .Close) ≤ 1 ∧
      (openNode.closeCalls [⟨true⟩]).countP (fun e => e.call = barrierCall) ≤ 1) ∧
    (openNilPoolNode.Close samplePool [] [] =
        ⟨.ret none, { openNilPoolNode with pool := none, closed := true },
          [] ++ openNilPoolNode.closeCalls []⟩ ∧
      (openNilPoolNode.Close samplePool [] []).node.Close samplePool
          (openNilPoolNode.Close samplePool [] []).calls [⟨true⟩] =
        ⟨.ret none, (openNilPoolNode.Close samplePool [] []).node,
          (openNilPoolNode.Close samplePool [] []).calls⟩ ∧
      (openNilPoolNode.closeCalls []).countP (fun e => e.call = .Close) ≤ 1 ∧
      (openNilPoolNode.closeCalls []).countP (fun e => e.call = barrierCall) ≤ 1) :=
  ⟨(Close_idempotent samplePool closedNode []).1 [⟨true⟩] rfl,
    (Close_idempotent samplePool openNode []).2 [⟨true⟩] [⟨true⟩] rfl
      (fun _ => ⟨_, rfl⟩) (fun _ => ⟨_, rfl⟩),
    (Close_idempotent samplePool openNilPoolNode []).2 [] [⟨true⟩] rfl
      (fun h => by cases h) (fun h => absurd rfl h)⟩

theorem Query_of_closed (env : PoolEnv) (n : Node) (tr : List PoolEvent) (q : Query)
    (h : n.closed = true) : n.Query env tr q = ⟨.ret (none, some .ErrInvalidNode), n, tr⟩ := by
  simp [Node.Query, Node.Closed, h]

theorem Exec_of_closed (env : PoolEnv) (n : Node) (tr : List PoolEvent) (q : Query)
    (h : n.closed = true) : n.Exec env tr q = ⟨.ret (some .ErrInvalidNode), n, tr⟩ := by
  simp [Node.Exec, Node.Closed, h]

theorem Server_of_closed (env : PoolEnv) (n : Node) (tr : List PoolEvent)
    (h : n.closed = true) :
    n.Server env tr = ⟨.ret (ServerResponse.zero, some .ErrInvalidNode), n, tr⟩ := by
  simp [Node.Server, Node.Closed, h]

/-- C2. For every Node, open ones included, and every list of `CloseOpts`: once `Close` has
returned (leaving the Node as `n1` and the trace as `tr1`), `Closed()` is true, and after any
further calls on the Node every `Query(q)`, `Exec(q)` and `Server()` returns `ErrInvalidNode`
(with a nil cursor, with the zero `ServerResponse`), leaving the Node and the trace of pool
calls as they were: no pool method is called. -/
theorem closed_node_rejects (env : PoolEnv) (n : Node) (tr : List PoolEvent)
    (optArgs : List CloseOpts) (e : Option GoError) (n1 : Node) (tr1 : List PoolEvent)
    (hret : n.Close env tr optArgs = ⟨.ret e, n1, tr1⟩) :
    n1.Closed = true ∧
    ∀ (ops : List Op) (q : Query),
      (run env (n1, tr1) ops).1.Query env (run env (n1, tr1) ops).2 q =
        ⟨.ret (none, some .ErrInvalidNode),
          (run env (n1, tr1) ops).1, (run env (n1, tr1) ops).2⟩ ∧
      (run env (n1, tr1) ops).1.Exec env (run env (n1, tr1) ops).2 q =
        ⟨.ret (some .ErrInvalidNode), (run env (n1, tr1) ops).1, (run env (n1, tr1) ops).2⟩ ∧
      (run env (n1, tr1) ops).1.Server env (run env (n1, tr1) ops).2 =
        ⟨.ret (ServerResponse.zero, some .ErrInvalidNode),
          (run env (n1, tr1) ops).1, (run env (n1, tr1) ops).2⟩ := by
  have hc : n1.closed = true := by
    have h := (Close_ret_closed env n tr optArgs e (by rw [hret])).2.1
    rw [hret] at h
    exact h
  refine ⟨hc, fun ops q => ?_⟩
  have hr := run_closed env ops (n1, tr1) hc
  exact ⟨Query_of_closed env _ _ q hr, Exec_of_closed env _ _ q hr, Server_of_closed env _ _ hr⟩

theorem sample_Close :
    openNode.Close samplePool [] [⟨true⟩] =
      ⟨.ret none, closedNode, closedTrace⟩ := by
  rw [Close_of_open_ret samplePool openNode [] [⟨true⟩] rfl (fun _ => ⟨_, rfl⟩)
    (fun _ => ⟨_, rfl⟩)]
  rfl

/-- Witness of C2: `openNode` closed with the barrier, reconfigured, closed again, then
queried. -/
theorem closed_node_rejects_witness :
    openNode.Close samplePool [] [⟨true⟩] = ⟨.ret none, closedNode, closedTrace⟩ ∧
    closedNode.Closed = true ∧
    ((run samplePool (closedNode, closedTrace) [.SetMaxIdleConns 3, .Close []]).1.Query
          samplePool
          (run samplePool (closedNode, closedTrace) [.SetMaxIdleConns 3, .Close []]).2
          sampleQuery =
        ⟨.ret (none, some .ErrInvalidNode),
          (run samplePool (closedNode, closedTrace) [.SetMaxIdleConns 3, .Close []]).1,
          (run samplePool (closedNode, closedTrace) [.SetMaxIdleConns 3, .Close []]).2⟩ ∧
      (run samplePool (closedNode, closedTrace) [.SetMaxIdleConns 3, .Close []]).1.Exec
          samplePool
          (run samplePool (closedNode, closedTrace) [.SetMaxIdleConns 3, .Close []]).2
          sampleQuery =
        ⟨.ret (some .ErrInvalidNode),
          (run samplePool (closedNode, closedTrace) [.SetMaxIdleConns 3, .Close []]).1,
          (run samplePool (closedNode, closedTrace) [.SetMaxIdleConns 3, .Close []]).2⟩ ∧
      (run samplePool (closedNode, closedTrace) [.SetMaxIdleConns 3, .Close []]).1.Server
          samplePool
          (run samplePool (closedNode, closedTrace) [.SetMaxIdleConns 3, .Close []]).2 =
        ⟨.ret (ServerResponse.zero, some .ErrInvalidNode),
          (run samplePool (closedNode, closedTrace) [.SetMaxIdleConns 3, .Close []]).1,
          (run samplePool (closedNode, closedTrace) [.SetMaxIdleConns 3, .Close []]).2⟩) :=
  ⟨sample_Close,
    (closed_node_rejects samplePool openNode [] [⟨true⟩] none closedNode closedTrace
      sample_Close).1,
    (closed_node_rejects samplePool openNode [] [⟨true⟩] none closedNode closedTrace
      sample_Close).2 [.SetMaxIdleConns 3, .Close []] sampleQuery⟩

theorem newNode_ret (id : String) (aliases : List Host) (cluster : Option ClusterRef)
    (pool : Option PoolRef) (n0 : Node) (h : newNode id aliases cluster pool = .ret n0) :
    ∃ hlen : 0 < aliases.length,
      n0 = ⟨id, aliases.get ⟨0, hlen⟩, aliases, cluster, pool, none, false⟩ := by
  unfold newNode at h
  split at h
  · rename_i hlen
    refine ⟨hlen, ?_⟩
    cases h
    rfl
  · cases h

/-- C3, as stated, fails: `newNode` given a nil `*Pool` returns an open Node whose pool is
absent, so in this reachable state (no call made yet) "pool present iff not closed" is
false. -/
theorem nil_pool_node_not_paired :
    newNode "n1" [⟨"db1", 28015⟩, ⟨"10.0.0.1", 28015⟩] (some ⟨0⟩) none = .ret openNilPoolNode ∧
    (run samplePool (openNilPoolNode, []) []).1 = openNilPoolNode ∧
    openNilPoolNode.closed = false ∧ openNilPoolNode.pool = none ∧
    ¬ (openNilPoolNode.pool ≠ none ↔ openNilPoolNode.closed = false) := by
  refine ⟨rfl, rfl, rfl, rfl, ?_⟩
  decide

/-- C3, amended.  For a Node that `newNode` built from a non-nil pool `p`: the initial state is
open with pool `p`; in every state reached by any sequence of `Close`, `Closed`, `Query`,
`Exec`, `Server`, `NoReplyWait`, `SetMaxIdleConns` and `SetMaxOpenConns` calls the pool field
is non-nil if and only if `closed` is false; and after a `Close` that returns, made in any such
state, the Node is closed with the pool absent. -/
theorem pool_present_iff_open (env : PoolEnv) (id : String) (aliases : List Host)
    (cluster : Option ClusterRef) (p : PoolRef) (n0 : Node)
    (hnew : newNode id aliases cluster (some p) = .ret n0) :
    (n0.closed = false ∧ n0.pool = some p) ∧
    (∀ tr ops, (run env (n0, tr) ops).1.pool ≠ none ↔ (run env (n0, tr) ops).1.closed = false) ∧
    (∀ tr ops optArgs e n1 tr1,
      (run env (n0, tr) ops).1.Close env (run env (n0, tr) ops).2 optArgs = ⟨.ret e, n1, tr1⟩ →
        n1.closed = true ∧ n1.pool = none) := by
  obtain ⟨hlen, hn0⟩ := newNode_ret id aliases cluster (some p) n0 hnew
  have hinit : n0.closed = false ∧ n0.pool = some p := by subst hn0; exact ⟨rfl, rfl⟩
  have hpaired : n0.Paired := by simp [Node.Paired, hinit.1, hinit.2]
  refine ⟨hinit, fun tr ops => run_paired env ops (n0, tr) hpaired, ?_⟩
  intro tr ops optArgs e n1 tr1 hret
  have hinv : (run env (n0, tr) ops).1.Paired := run_paired env ops (n0, tr) hpaired
  have h := Close_ret_closed env _ _ optArgs e (by rw [hret])
  rw [hret] at h
  refine ⟨h.2.1, ?_⟩
  cases hc : (run env (n0, tr) ops).1.closed with
  | false => exact h.2.2 hc
  | true =>
    rw [Close_of_closed env _ _ optArgs hc] at hret
    have hn1 : n1 = (run env (n0, tr) ops).1 := by cases hret; rfl
    rw [hn1]
    by_contra hne
    have := hinv.1 hne
    rw [hc] at this
    cases this

/-- Witness of C3 (amended): a Node built on the pool at address 1, closed, then asked to close
again. -/
theorem pool_present_iff_open_witness :
    newNode "n1" [⟨"db1", 28015⟩, ⟨"10.0.0.1", 28015⟩] (some ⟨0⟩) (some ⟨1⟩) = .ret openNode ∧
    (openNode.closed = false ∧ openNode.pool = some ⟨1⟩) ∧
    ((run samplePool (openNode, []) [.Query sampleQuery, .Close [⟨true⟩], .Server]).1.pool ≠ none ↔
      (run samplePool (openNode, []) [.Query sampleQuery, .Close [⟨true⟩], .Server]).1.closed =
        false) :=
  ⟨rfl,
    (pool_present_iff_open samplePool "n1" [⟨"db1", 28015⟩, ⟨"10.0.0.1", 28015⟩] (some ⟨0⟩) ⟨1⟩
      openNode rfl).1,
    (pool_present_iff_open samplePool "n1" [⟨"db1", 28015⟩, ⟨"10.0.0.1", 28015⟩] (some ⟨0⟩) ⟨1⟩
      openNode rfl).2.1 [] [.Query sampleQuery, .Close [⟨true⟩], .Server]⟩

/-- C4. The `closed` flag is monotonic: on a Node with `closed = true`, after any one call
(`Close` with any options, `Closed`, `Query`, `Exec`, `Server`, `NoReplyWait`,
`SetMaxIdleConns`, `SetMaxOpenConns`) `closed` is still true, and so it is after any sequence
of such calls. -/
theorem closed_is_monotonic (env : PoolEnv) (n : Node) (tr : List PoolEvent)
    (hc : n.closed = true) :
    (∀ op, (step env (n, tr) op).1.closed = true) ∧
    (∀ ops, (run env (n, tr) ops).1.closed = true) :=
  ⟨fun op => step_closed env (n, tr) op hc, fun ops => run_closed env ops (n, tr) hc⟩

/-- Witness of C4 on `closedNode`. -/
theorem closed_is_monotonic_witness :
    closedNode.closed = true ∧
    (step samplePool (closedNode, closedTrace) (.Close [⟨true⟩])).1.closed = true ∧
    (run samplePool (closedNode, closedTrace)
      [.SetMaxOpenConns 5, .NoReplyWait, .Close [], .Query sampleQuery]).1.closed = true :=
  ⟨rfl, (closed_is_monotonic samplePool closedNode closedTrace rfl).1 (.Close [⟨true⟩]),
    (closed_is_monotonic samplePool closedNode closedTrace rfl).2
      [.SetMaxOpenConns 5, .NoReplyWait, .Close [], .Query sampleQuery]⟩

/-- C5. Barrier before teardown.  On an open Node whose pool `p` is present: `Close` with a
first option whose `NoReplyWait` is true, the barrier returning, makes on the pool exactly the
calls `Exec(Query{Type: NOREPLY_WAIT})` then `Close`, in this order; `Close` with no option, or
with a first option whose `NoReplyWait` is false, makes exactly the call `Close`. -/
theorem barrier_before_teardown (env : PoolEnv) (n : Node) (tr : List PoolEvent) (p : PoolRef)
    (hopen : n.closed = false) (hp : n.pool = some p) :
    (∀ o rest e, o.NoReplyWait = true →
      env.Exec tr (some p) { Typ := Query_NOREPLY_WAIT, body := none } = .ret e →
      (n.Close env tr (o :: rest)).calls =
        tr ++ [⟨some p, .Exec { Typ := Query_NOREPLY_WAIT, body := none }⟩, ⟨some p, .Close⟩]) ∧
    (n.Close env tr []).calls = tr ++ [⟨some p, .Close⟩] ∧
    (∀ o rest, o.NoReplyWait = false →
      (n.Close env tr (o :: rest)).calls = tr ++ [⟨some p, .Close⟩]) := by
  refine ⟨fun o rest e ho he => ?_, ?_, fun o rest ho => ?_⟩
  · rw [← hp] at he
    rw [Close_calls_of_open env n tr (o :: rest) hopen
      (closeBarrier_of_ret env n tr (o :: rest) e he)]
    simp [Node.closeCalls, wantsBarrier, ho, hp, barrierCall]
  · have hb := closeBarrier_of_not_wanted env n tr [] rfl
    rw [Close_calls_of_open env n tr [] hopen (by rw [hb]; simp [wantsBarrier])]
    simp [Node.closeCalls, wantsBarrier, hp]
  · have hb := closeBarrier_of_not_wanted env n tr (o :: rest) ho
    rw [Close_calls_of_open env n tr (o :: rest) hopen (by rw [hb]; simp [wantsBarrier, ho])]
    simp [Node.closeCalls, wantsBarrier, ho, hp]

/-- Witness of C5 on `openNode`: with the barrier, with no option, with the barrier off. -/
theorem barrier_before_teardown_witness :
    (openNode.closed = false ∧ openNode.pool = some ⟨1⟩) ∧
    (openNode.Close samplePool [] [⟨true⟩, ⟨false⟩]).calls =
      [] ++ [⟨some ⟨1⟩, .Exec { Typ := Query_NOREPLY_WAIT, body := none }⟩,
        ⟨some ⟨1⟩, .Close⟩] ∧
    (openNode.Close samplePool [] []).calls = [] ++ [⟨some ⟨1⟩, .Close⟩] ∧
    (openNode.Close samplePool [] [⟨false⟩, ⟨true⟩]).calls = [] ++ [⟨some ⟨1⟩, .Close⟩] :=
  ⟨⟨rfl, rfl⟩,
    (barrier_before_teardown samplePool openNode [] ⟨1⟩ rfl rfl).1 ⟨true⟩ [⟨false⟩]
      (some (.other 1)) rfl rfl,
    (barrier_before_teardown samplePool openNode [] ⟨1⟩ rfl rfl).2.1,
    (barrier_before_teardown samplePool openNode [] ⟨1⟩ rfl rfl).2.2 ⟨false⟩ [⟨true⟩] rfl⟩

/-- C6, as stated, fails: on an open Node whose pool is nil, `Close` (no option, so no
barrier) returns nil and ends closed, but the guard `if n.pool != nil` skips the pool's
`Close`: no call is made at all. -/
theorem Close_on_nil_pool_skips_pool_Close :
    openNilPoolNode.closed = false ∧
    (openNilPoolNode.Close samplePool [] []).out = .ret none ∧
    (openNilPoolNode.Close samplePool [] []).node.closed = true ∧
    (openNilPoolNode.Close samplePool [] []).calls = [] ∧
    ¬ ∃ r, (⟨r, .Close⟩ : PoolEvent) ∈ (openNilPoolNode.Close samplePool [] []).calls := by
  have h : openNilPoolNode.Close samplePool [] [] = ⟨.ret none, closedNode, []⟩ := by
    rw [Close_of_open samplePool openNilPoolNode [] [] rfl]
    rfl
  rw [h]
  refine ⟨rfl, rfl, rfl, rfl, ?_⟩
  simp

/-- C6, amended.  `Close` always succeeds and the barrier is best-effort, on an open Node whose
pool `p` is present: for every list of `CloseOpts` and whatever the barrier (if asked for)
and the pool's `Close` return (nil or any error), `Close` returns nil, makes on the pool
exactly the barrier (if asked for) and then the pool's `Close`, and the Node ends with `pool`
absent and `closed = true`, the other fields unchanged.  Neither error reaches the caller. -/
theorem Close_always_succeeds (env : PoolEnv) (n : Node) (tr : List PoolEvent)
    (optArgs : List CloseOpts) (p : PoolRef) (eclose : Option GoError)
    (hopen : n.closed = false) (hp : n.pool = some p)
    (hbar : wantsBarrier optArgs = true →
      ∃ ebar, env.Exec tr (some p) { Typ := Query_NOREPLY_WAIT, body := none } = .ret ebar)
    (hclose : env.Close
      (tr ++ (if wantsBarrier optArgs then [⟨some p, barrierCall⟩] else [])) (some p) =
        .ret eclose) :
    n.Close env tr optArgs =
      ⟨.ret none, { n with pool := none, closed := true },
        tr ++ (if wantsBarrier optArgs then [⟨some p, barrierCall⟩] else []) ++
          [⟨some p, .Close⟩]⟩ := by
  rw [← hp] at hbar hclose
  rw [Close_of_open_ret env n tr optArgs hopen hbar (fun _ => ⟨eclose, hclose⟩)]
  simp [Node.closeCalls, hp]

/-- Witness of C6 (amended): `samplePool` answers the barrier with error 1 and the pool's
`Close` with error 2, and `Close` with the barrier asked for returns nil after both calls;
`panicExecPool`, whose `Exec` would panic, is closed with no option. -/
theorem Close_always_succeeds_witness :
    (openNode.closed = false ∧ openNode.pool = some ⟨1⟩ ∧
      samplePool.Exec [] (some ⟨1⟩) { Typ := Query_NOREPLY_WAIT, body := none } =
        .ret (some (.other 1)) ∧
      samplePool.Close [⟨some ⟨1⟩, barrierCall⟩] (some ⟨1⟩) = .ret (some (.other 2))) ∧
    openNode.Close samplePool [] [⟨true⟩] =
      ⟨.ret none, { openNode with pool := none, closed := true },
        [] ++ (if wantsBarrier [⟨true⟩] then [⟨some ⟨1⟩, barrierCall⟩] else []) ++
          [⟨some ⟨1⟩, .Close⟩]⟩ ∧
    openNode.Close panicExecPool [] [] =
      ⟨.ret none, { openNode with pool := none, closed := true },
        [] ++ (if wantsBarrier [] then [⟨some ⟨1⟩, barrierCall⟩] else []) ++
          [⟨some ⟨1⟩, .Close⟩]⟩ :=
  ⟨⟨rfl, rfl, rfl, rfl⟩,
    Close_always_succeeds samplePool openNode [] [⟨true⟩] ⟨1⟩ (some (.other 2)) rfl rfl
      (fun _ => ⟨_, rfl⟩) rfl,
    Close_always_succeeds panicExecPool openNode [] [] ⟨1⟩ none rfl rfl
      (fun h => by cases h) rfl⟩

/-- C7. Pass-through on an open Node with a present pool `p`: `Query(q)` makes exactly one
pool call, `p.Query(q)` with the same `q`, and its outcome is exactly the pool's (the same
cursor and error, nil or not); `Exec(q)` likewise with `p.Exec(q)`; `Server()` likewise with
`p.Server()`; the Node's fields are unchanged. -/
theorem open_node_pass_through (env : PoolEnv) (n : Node) (tr : List PoolEvent) (p : PoolRef)
    (hopen : n.closed = false) (hp : n.pool = some p) :
    (∀ q, n.Query env tr q = ⟨env.Query tr (some p) q, n, tr ++ [⟨some p, .Query q⟩]⟩) ∧
    (∀ q, n.Exec env tr q = ⟨env.Exec tr (some p) q, n, tr ++ [⟨some p, .Exec q⟩]⟩) ∧
    n.Server env tr = ⟨env.Server tr (some p), n, tr ++ [⟨some p, .Server⟩]⟩ := by
  refine ⟨fun q => ?_, fun q => ?_, ?_⟩
  · simp only [Node.Query, Node.Closed, hopen, Bool.false_eq_true, if_false, hp]
    cases env.Query tr (some p) q with
    | panic msg => rfl
    | ret a =>
      obtain ⟨cursor, err⟩ := a
      simp only
      split <;> rfl
  · simp only [Node.Exec, Node.Closed, hopen, Bool.false_eq_true, if_false, hp]
    cases env.Exec tr (some p) q with
    | panic msg => rfl
    | ret err =>
      simp only
      split <;> rfl
  · simp only [Node.Server, Node.Closed, hopen, Bool.false_eq_true, if_false, hp]

/-- Witness of C7 on `openNode`. -/
theorem open_node_pass_through_witness :
    (openNode.closed = false ∧ openNode.pool = some ⟨1⟩) ∧
    openNode.Query samplePool [] sampleQuery =
      ⟨samplePool.Query [] (some ⟨1⟩) sampleQuery, openNode,
        [] ++ [⟨some ⟨1⟩, .Query sampleQuery⟩]⟩ ∧
    openNode.Exec samplePool [] sampleQuery =
      ⟨samplePool.Exec [] (some ⟨1⟩) sampleQuery, openNode,
        [] ++ [⟨some ⟨1⟩, .Exec sampleQuery⟩]⟩ ∧
    openNode.Server samplePool [] =
      ⟨samplePool.Server [] (some ⟨1⟩), openNode, [] ++ [⟨some ⟨1⟩, .Server⟩]⟩ :=
  ⟨⟨rfl, rfl⟩,
    (open_node_pass_through samplePool openNode [] ⟨1⟩ rfl rfl).1 sampleQuery,
    (open_node_pass_through samplePool openNode [] ⟨1⟩ rfl rfl).2.1 sampleQuery,
    (open_node_pass_through samplePool openNode [] ⟨1⟩ rfl rfl).2.2⟩

/-- C8. Constructor contract.  For every id, cluster and pool: on a non-empty alias list
`newNode` returns a Node with `closed = false`, `ID = id`, `Host = aliases[0]`, the aliases as
given and in the same order, and the pool and cluster given; on the empty alias list it
panics (index out of range); and whenever it returns a Node, the alias list was non-empty and
`Host` is its first entry. -/
theorem newNode_contract (id : String) (cluster : Option ClusterRef) (pool : Option PoolRef) :
    (∀ a rest, newNode id (a :: rest) cluster pool =
      .ret { ID := id, Host := a, aliases := a :: rest, cluster := cluster, pool := pool,
             hpr := none, closed := false }) ∧
    newNode id [] cluster pool = .panic "runtime error: index out of range [0] with length 0" ∧
    (∀ aliases n0, newNode id aliases cluster pool = .ret n0 →
      ∃ hlen : 0 < aliases.length, n0.Host = aliases.get ⟨0, hlen⟩) := by
  refine ⟨fun a rest => by simp [newNode], rfl, fun aliases n0 h => ?_⟩
  obtain ⟨hlen, hn0⟩ := newNode_ret id aliases cluster pool n0 h
  exact ⟨hlen, by rw [hn0]⟩

/-- Witness of C8: the Node built from two aliases, and its `Host`. -/
theorem newNode_contract_witness :
    newNode "n1" [⟨"db1", 28015⟩, ⟨"10.0.0.1", 28015⟩] (some ⟨0⟩) (some ⟨1⟩) = .ret openNode ∧
    ∃ hlen : 0 < [(⟨"db1", 28015⟩ : Host), ⟨"10.0.0.1", 28015⟩].length,
      openNode.Host = [(⟨"db1", 28015⟩ : Host), ⟨"10.0.0.1", 28015⟩].get ⟨0, hlen⟩ :=
  ⟨rfl,
    (newNode_contract "n1" (some ⟨0⟩) (some ⟨1⟩)).2.2 [⟨"db1", 28015⟩, ⟨"10.0.0.1", 28015⟩]
      openNode rfl⟩

/-- C10. Configuration pass-through.  On every Node, open or closed, and for every integer `k`,
`SetMaxIdleConns(k)` makes exactly one pool call, `SetMaxIdleConns(k)` on `n.pool` with the
same `k`, its outcome is the pool's and the Node's fields are unchanged; likewise
`SetMaxOpenConns(k)`.  After a `Close` of an open Node has returned, the receiver of that call
is the nil pool, and the outcome is what the pool layer makes of it: a return, or a failure
raised in the pool's method; the Node adds no check and no error of its own. -/
theorem SetMaxConns_pass_through (env : PoolEnv) (n : Node) (tr : List PoolEvent) (k : Int) :
    n.SetMaxIdleConns env tr k =
      ⟨env.SetMaxIdleConns tr n.pool k, n, tr ++ [⟨n.pool, .SetMaxIdleConns k⟩]⟩ ∧
    n.SetMaxOpenConns env tr k =
      ⟨env.SetMaxOpenConns tr n.pool k, n, tr ++ [⟨n.pool, .SetMaxOpenConns k⟩]⟩ ∧
    (∀ optArgs e n1 tr1, n.closed = false → n.Close env tr optArgs = ⟨.ret e, n1, tr1⟩ →
      (n1.SetMaxIdleConns env tr1 k =
          ⟨env.SetMaxIdleConns tr1 none k, n1, tr1 ++ [⟨none, .SetMaxIdleConns k⟩]⟩ ∧
        n1.SetMaxOpenConns env tr1 k =
          ⟨env.SetMaxOpenConns tr1 none k, n1, tr1 ++ [⟨none, .SetMaxOpenConns k⟩]⟩) ∧
      ((n1.SetMaxIdleConns env tr1 k).out = .ret () ∨
        ∃ msg, env.SetMaxIdleConns tr1 none k = .panic msg ∧
          (n1.SetMaxIdleConns env tr1 k).out = .panic msg) ∧
      ((n1.SetMaxOpenConns env tr1 k).out = .ret () ∨
        ∃ msg, env.SetMaxOpenConns tr1 none k = .panic msg ∧
          (n1.SetMaxOpenConns env tr1 k).out = .panic msg)) := by
  refine ⟨rfl, rfl, ?_⟩
  intro optArgs e n1 tr1 hopen hret
  have h := (Close_ret_closed env n tr optArgs e (by rw [hret])).2.2 hopen
  rw [hret] at h
  simp only at h
  refine ⟨⟨by simp [Node.SetMaxIdleConns, h], by simp [Node.SetMaxOpenConns, h]⟩, ?_, ?_⟩
  · simp only [Node.SetMaxIdleConns, h]
    cases env.SetMaxIdleConns tr1 none k with
    | ret u => exact Or.inl rfl
    | panic msg => exact Or.inr ⟨msg, rfl, rfl⟩
  · simp only [Node.SetMaxOpenConns, h]
    cases env.SetMaxOpenConns tr1 none k with
    | ret u => exact Or.inl rfl
    | panic msg => exact Or.inr ⟨msg, rfl, rfl⟩

/-- Witness of C10: `openNode` closed with the barrier, then `SetMaxIdleConns(3)` and
`SetMaxOpenConns(3)`. -/
theorem SetMaxConns_pass_through_witness :
    (openNode.closed = false ∧
      openNode.Close samplePool [] [⟨true⟩] = ⟨.ret none, closedNode, closedTrace⟩) ∧
    (closedNode.SetMaxIdleConns samplePool closedTrace 3 =
        ⟨samplePool.SetMaxIdleConns closedTrace none 3, closedNode,
          closedTrace ++ [⟨none, .SetMaxIdleConns 3⟩]⟩ ∧
      closedNode.SetMaxOpenConns samplePool closedTrace 3 =
        ⟨samplePool.SetMaxOpenConns closedTrace none 3, closedNode,
          closedTrace ++ [⟨none, .SetMaxOpenConns 3⟩]⟩) :=
  ⟨⟨rfl, sample_Close⟩,
    ((SetMaxConns_pass_through samplePool openNode [] 3).2.2 [⟨true⟩] none closedNode closedTrace
      rfl sample_Close).1⟩

/-- The two steps of the `Query` goroutine, run back to back, are Go `(*Node).Query`. -/
theorem Query_eq_check_then_delegate (env : PoolEnv) (n : Node) (tr : List PoolEvent)
    (q : Query) : n.Query env tr q = n.queryDelegate env tr q n.Closed :=
  rfl

/-- C9, on the code.  `openNode` (pool at address 1), one goroutine in `Query(q)`, one in
`Close()`, scheduled: the closed check (it sees `closed = false` while the pool field holds
the pool at address 1), then the whole `Close`, then the rest of `Query`.  The pool call of
`Query` is made on the nil pool that `Close` has left in the field, after the pool's
`Close`, not on the pool that was there when the check ran.  So it is not the case that in
every schedule the receiver of the delegated call is the pool seen at the check. -/
theorem Query_after_check_uses_pool_cleared_by_Close :
    Sys.run samplePool sampleQuery [] raceStart [.query, .close, .query] =
      { node := closedNode
        calls := [⟨some ⟨1⟩, .Close⟩, ⟨none, .Query sampleQuery⟩]
        qpc := .done (.panic "nil pointer dereference") (some none)
        cpc := .done (.ret none)
        seen := some (some ⟨1⟩) } ∧
    ¬ ∀ sched out recv,
      (Sys.run samplePool sampleQuery [] raceStart sched).qpc = .done out (some recv) →
        (Sys.run samplePool sampleQuery [] raceStart sched).seen = some recv := by
  refine ⟨rfl, fun h => ?_⟩
  have h1 := h [.query, .close, .query] (.panic "nil pointer dereference") none rfl
  exact absurd h1 (by decide)

end Gorethink
